import Mathlib

/-!
Shallow embedding of the slang-normalizer application (`src/streamlit_app.py`).

A slang dictionary is modelled as an association list `List (String × String)`
with Python-`dict` semantics: insertion with an existing key overwrites the
value in place, insertion with a fresh key appends at the end.  The three
operations of the application are embedded:

* `Slang.load_data_and_model` — the dictionary builder (lines 46-74 of the
  source): keep the first two columns (the row type `String × String` captures
  this), drop a mistakenly ingested header row, drop raw-duplicate slang rows
  keeping the first, lowercase and strip both columns, drop rows whose cleaned
  slang is `"it"`, and materialize the dict (last value wins on key collisions,
  as `Series.to_dict` does).
* `Slang.normalize_slang` — the normalizer (lines 83-96): whitespace-token
  split, lowercase + strip ASCII punctuation per token, dictionary lookup with
  the original token as default, rejoin with single spaces.
* `Slang.add_slang` — the add-slang form handler (lines 216-229): reject an
  empty slang or meaning, clean both inputs (lowercase, trim), reject an
  existing cleaned key, otherwise insert.

String primitives (`str.lower`, `str.strip`, `str.split`) are embedded as
structurally recursive functions over the character list of a `String`, so
that every definition evaluates inside the kernel.
-/

namespace Slang

/-- Python whitespace for `str.strip()` / `str.split()` (ASCII fragment):
space, tab, newline, vertical tab, form feed, carriage return. -/
def isWs (c : Char) : Bool :=
  c.toNat == 32 || (9 ≤ c.toNat && c.toNat ≤ 13)

/-- The character set `string.punctuation` of Python: the ASCII ranges
33-47, 58-64, 91-96 and 123-126. -/
def isPunct (c : Char) : Bool :=
  (33 ≤ c.toNat && c.toNat ≤ 47) || (58 ≤ c.toNat && c.toNat ≤ 64) ||
  (91 ≤ c.toNat && c.toNat ≤ 96) || (123 ≤ c.toNat && c.toNat ≤ 126)

/-- Python `str.lower()` (ASCII fragment), as a map over the characters. -/
def toLowerStr (s : String) : String :=
  String.mk (s.data.map Char.toLower)

/-- Python `str.strip()`: remove leading and trailing whitespace. -/
def trimStr (s : String) : String :=
  String.mk (((s.data.dropWhile isWs).reverse.dropWhile isWs).reverse)

/-- Python `str.strip(string.punctuation)`: remove leading and trailing
ASCII punctuation characters. -/
def stripPunct (s : String) : String :=
  String.mk (((s.data.dropWhile isPunct).reverse.dropWhile isPunct).reverse)

/-- The cleaning applied to both columns by the builder and to both inputs by
the add-slang form: `x.lower().strip()`. -/
def clean (s : String) : String :=
  trimStr (toLowerStr s)

/-- Python `dict` lookup `d.get(k)` on the association-list model. -/
def lookup? (d : List (String × String)) (k : String) : Option String :=
  (d.find? (fun p => p.1 == k)).map Prod.snd

/-- Python `dict` insertion `d[k] = v` on the association-list model:
overwrite the (unique) entry in place when the key is present, append at the
end otherwise. -/
def dinsert : List (String × String) → String → String → List (String × String)
  | [], k, v => [(k, v)]
  | p :: t, k, v => if p.1 == k then (k, v) :: t else p :: dinsert t k v

/-- `Series.to_dict` on a series indexed by the slang column: fold the rows
into a Python `dict`, so a later row with an equal key overwrites an earlier
one. -/
def toDict (rows : List (String × String)) : List (String × String) :=
  rows.foldl (fun d p => dinsert d p.1 p.2) []

/-- Header-row detection of the builder (lines 57-59): the first row is
dropped when it equals `("?", "I have a question")`, compared on the raw
values. -/
def dropHeader : List (String × String) → List (String × String)
  | [] => []
  | (s, m) :: rest =>
    if s == "?" && m == "I have a question" then rest else (s, m) :: rest

/-- `df.drop_duplicates(subset=["slang"])` (line 61): keep each row whose raw
slang value has not occurred in an earlier row. -/
def dedupSlang : List String → List (String × String) → List (String × String)
  | _, [] => []
  | seen, r :: rs =>
    if seen.contains r.1 then dedupSlang seen rs
    else r :: dedupSlang (r.1 :: seen) rs

/-- The builder pipeline after the header-row check: raw-value deduplication,
cleaning of both columns, the `"it"` denylist filter, and materialization. -/
def buildRows (rows : List (String × String)) : List (String × String) :=
  toDict (((dedupSlang [] rows).map (fun p => (clean p.1, clean p.2))).filter
    (fun p => p.1 != "it"))

/-- The dictionary builder `load_data_and_model` (lines 46-74), on a raw table
already reduced to its first two columns (rows in order, column 0 = slang,
column 1 = meaning). -/
def load_data_and_model (rows : List (String × String)) : List (String × String) :=
  buildRows (dropHeader rows)

/-- Accumulator-based worker for Python `str.split()`. -/
def wordsAux : List Char → List Char → List String
  | [], acc => if acc.isEmpty then [] else [String.mk acc.reverse]
  | c :: cs, acc =>
    if isWs c then
      if acc.isEmpty then wordsAux cs []
      else String.mk acc.reverse :: wordsAux cs []
    else wordsAux cs (c :: acc)

/-- Python `sentence.split()`: split on runs of whitespace, discarding empty
tokens. -/
def pySplit (s : String) : List String :=
  wordsAux s.data []

/-- Per-token cleaning of the normalizer (line 92):
`word.lower().strip(string.punctuation)`. -/
def cleanWord (w : String) : String :=
  stripPunct (toLowerStr w)

/-- `" ".join(normalized_words)` (line 96). -/
def joinSp : List String → String
  | [] => ""
  | [w] => w
  | w :: ws => w ++ " " ++ joinSp ws

/-- The normalizer `normalize_slang` (lines 83-96): look each cleaned token up
in the dictionary, falling back to the original token, and rejoin with single
spaces. -/
def normalize_slang (sentence : String) (slang_dict : List (String × String)) : String :=
  joinSp ((pySplit sentence).map
    (fun word => (lookup? slang_dict (cleanWord word)).getD word))

/-- Outcome of the add-slang form. -/
inductive AddResult where
  | ok
  | invalidInput
  | alreadyExists
deriving DecidableEq

/-- The add-slang form handler (lines 216-229).  The emptiness check
`if not new_slang or not new_meaning` runs on the raw inputs, before cleaning;
the duplicate check and the insertion use the cleaned inputs.  Returns the
outcome together with the resulting store (unchanged on failure). -/
def add_slang (d : List (String × String)) (new_slang new_meaning : String) :
    AddResult × List (String × String) :=
  if new_slang == "" || new_meaning == "" then
    (AddResult.invalidInput, d)
  else
    let clean_slang := clean new_slang
    let clean_meaning := clean new_meaning
    if (lookup? d clean_slang).isSome then
      (AddResult.alreadyExists, d)
    else
      (AddResult.ok, dinsert d clean_slang clean_meaning)

/-- The error message shown when the session dictionary is absent (line 245). -/
def dictUnavailableMsg : String :=
  "Could not load the slang dictionary. The app cannot function."

/-- The application-level dispatch around the normalizer (lines 109-114, 244):
the session dictionary is `load_data_and_model`'s result, possibly `None`; the
guard `if st.session_state.slang_dict` runs the normalizer only on a present,
non-empty dictionary and otherwise surfaces an error. -/
def appNormalize (d : Option (List (String × String))) (text : String) :
    Except String String :=
  match d with
  | some dict =>
    if dict.isEmpty then Except.error dictUnavailableMsg
    else Except.ok (normalize_slang text dict)
  | none => Except.error dictUnavailableMsg

/-! Helper lemmas about the association-list dictionary model. -/

theorem lookup?_cons (p : String × String) (t : List (String × String)) (k : String) :
    lookup? (p :: t) k = if p.1 = k then some p.2 else lookup? t k := by
  by_cases h : p.1 = k
  · simp [lookup?, List.find?, h]
  · simp [lookup?, List.find?, h, beq_eq_false_iff_ne.mpr h]

theorem lookup?_append (d e : List (String × String)) (k : String) :
    lookup? (d ++ e) k = ((lookup? d k).orElse fun _ => lookup? e k) := by
  induction d with
  | nil => simp [lookup?]
  | cons p t ih =>
    rw [List.cons_append, lookup?_cons, lookup?_cons]
    by_cases h : p.1 = k <;> simp [h, ih]

theorem lookup?_eq_none_iff (d : List (String × String)) (k : String) :
    lookup? d k = none ↔ ∀ p ∈ d, p.1 ≠ k := by
  induction d with
  | nil => simp [lookup?]
  | cons p t ih =>
    rw [lookup?_cons]
    by_cases h : p.1 = k <;> simp [h, ih]

theorem lookup?_eq_none_of_not_mem_keys (d : List (String × String)) (k : String)
    (h : k ∉ d.map Prod.fst) : lookup? d k = none := by
  rw [lookup?_eq_none_iff]
  intro p hp e
  exact h (e ▸ List.mem_map_of_mem Prod.fst hp)

theorem dinsert_of_lookup_none (d : List (String × String)) (k v : String)
    (h : lookup? d k = none) : dinsert d k v = d ++ [(k, v)] := by
  induction d with
  | nil => rfl
  | cons p t ih =>
    rw [lookup?_cons] at h
    by_cases hp : p.1 = k
    · rw [if_pos hp] at h
      exact Option.noConfusion h
    · rw [if_neg hp] at h
      simp only [dinsert, beq_eq_false_iff_ne.mpr hp, Bool.false_eq_true, if_false,
        List.cons_append]
      rw [ih h]

theorem lookup?_dinsert_ne (d : List (String × String)) (k' v k : String)
    (h : k' ≠ k) : lookup? (dinsert d k' v) k = lookup? d k := by
  induction d with
  | nil =>
    simp only [dinsert]
    rw [lookup?_cons, if_neg h]
  | cons p t ih =>
    by_cases hp : p.1 = k'
    · simp only [dinsert, hp, beq_self_eq_true, if_true]
      rw [lookup?_cons, lookup?_cons, if_neg h, if_neg (fun e => h (hp.symm.trans e))]
    · simp only [dinsert, beq_eq_false_iff_ne.mpr hp, Bool.false_eq_true, if_false]
      rw [lookup?_cons, lookup?_cons, ih]

theorem lookup?_foldl_dinsert_none (l : List (String × String)) (k : String) :
    ∀ acc : List (String × String), lookup? acc k = none →
      (∀ p ∈ l, p.1 ≠ k) →
      lookup? (l.foldl (fun d p => dinsert d p.1 p.2) acc) k = none := by
  induction l with
  | nil => intro acc hacc _; exact hacc
  | cons p t ih =>
    intro acc hacc hl
    simp only [List.foldl_cons]
    apply ih
    · rw [lookup?_dinsert_ne _ _ _ _ (hl p (List.mem_cons_self p t))]
      exact hacc
    · intro q hq
      exact hl q (List.mem_cons_of_mem p hq)

theorem foldl_dinsert_eq_append (l : List (String × String)) :
    ∀ acc : List (String × String), ((acc ++ l).map Prod.fst).Nodup →
      l.foldl (fun d p => dinsert d p.1 p.2) acc = acc ++ l := by
  induction l with
  | nil => intro acc _; simp
  | cons p t ih =>
    intro acc h
    have hperm : ((acc ++ p :: t).map Prod.fst).Perm
        (p.1 :: (acc ++ t).map Prod.fst) := by
      simp
    have h' : (p.1 :: (acc ++ t).map Prod.fst).Nodup := hperm.nodup_iff.mp h
    have hknot : p.1 ∉ acc.map Prod.fst := by
      intro hmem
      exact (List.nodup_cons.mp h').1 (by simp at hmem ⊢; tauto)
    simp only [List.foldl_cons]
    rw [dinsert_of_lookup_none _ _ _ (lookup?_eq_none_of_not_mem_keys _ _ hknot)]
    rw [ih (acc ++ [p]) (by simpa using h)]
    simp

theorem toDict_eq_self (l : List (String × String)) (h : (l.map Prod.fst).Nodup) :
    toDict l = l := by
  unfold toDict
  simpa using foldl_dinsert_eq_append l [] (by simpa using h)

theorem dedupSlang_eq_self (l : List (String × String)) :
    ∀ seen : List String, (seen ++ l.map Prod.fst).Nodup →
      dedupSlang seen l = l := by
  induction l with
  | nil => intro seen _; rfl
  | cons p t ih =>
    intro seen h
    have hperm : (seen ++ (p :: t).map Prod.fst).Perm
        (p.1 :: (seen ++ t.map Prod.fst)) := by
      simp
    have h' : (p.1 :: (seen ++ t.map Prod.fst)).Nodup := hperm.nodup_iff.mp h
    have hnot : p.1 ∉ seen := by
      intro hmem
      exact (List.nodup_cons.mp h').1 (List.mem_append_left _ hmem)
    have hc : seen.contains p.1 = false := by
      simpa using hnot
    simp only [dedupSlang, hc, Bool.false_eq_true, if_false]
    rw [ih (p.1 :: seen) (by simpa using h')]

/-! Claim theorems. -/

/-- Claim C1, counterexample: on the raw source rows
("?","I have a question"), ("LOL","laughing out loud"), ("lol","laugh out loud"),
("IT","pronoun"), the built dictionary is NOT the claimed
lol ↦ "laughing out loud": deduplication runs on the raw values, so "LOL" and
"lol" are not merged, and materialization lets the later cleaned row win. -/
theorem C1_claim_false :
    load_data_and_model
      [("?", "I have a question"), ("LOL", "laughing out loud"),
       ("lol", "laugh out loud"), ("IT", "pronoun")] ≠
      [("lol", "laughing out loud")] := by decide

/-- Claim C1, amended: on those raw source rows, the built dictionary is
exactly lol ↦ "laugh out loud": the sentinel header row is dropped and the
"it" row is denylisted, but the raw-value duplicate check keeps both "LOL"
and "lol", so after cleaning the later occurrence overwrites the earlier one
in the materialized dictionary. -/
theorem C1_build_exact :
    load_data_and_model
      [("?", "I have a question"), ("LOL", "laughing out loud"),
       ("lol", "laugh out loud"), ("IT", "pronoun")] =
      [("lol", "laugh out loud")] := by decide

/-- Claim C2, counterexample: with the dictionary mapping "wyd" and "lol" as
in the claim, normalize of "wyd lol, ttyl!" is NOT the claimed
"what you doing laughing out loud, ttyl!": the comma of the matched token
"lol," is discarded together with the rest of the token. -/
theorem C2_claim_false :
    normalize_slang "wyd lol, ttyl!"
      [("wyd", "what you doing"), ("lol", "laughing out loud")] ≠
      "what you doing laughing out loud, ttyl!" := by decide

/-- Claim C2, amended: for every dictionary mapping "wyd" to "what you doing"
and "lol" to "laughing out loud" and without key "ttyl", normalize of
"wyd lol, ttyl!" returns "what you doing laughing out loud ttyl!": matched
tokens are replaced by their meaning with the token's punctuation discarded,
and unmatched tokens, including ones with trailing punctuation not matched,
pass through verbatim. -/
theorem C2_normalize_example (d : List (String × String))
    (h1 : lookup? d "wyd" = some "what you doing")
    (h2 : lookup? d "lol" = some "laughing out loud")
    (h3 : lookup? d "ttyl" = none) :
    normalize_slang "wyd lol, ttyl!" d = "what you doing laughing out loud ttyl!" := by
  have e : pySplit "wyd lol, ttyl!" = ["wyd", "lol,", "ttyl!"] := by decide
  have c1 : cleanWord "wyd" = "wyd" := by decide
  have c2 : cleanWord "lol," = "lol" := by decide
  have c3 : cleanWord "ttyl!" = "ttyl" := by decide
  unfold normalize_slang
  rw [e]
  simp only [List.map_cons, List.map_nil, c1, c2, c3, h1, h2, h3]
  decide

/-- Claim C2, witness: the amended statement applied to the concrete
two-entry dictionary of the claim. -/
theorem C2_normalize_example_witness :
    normalize_slang "wyd lol, ttyl!"
      [("wyd", "what you doing"), ("lol", "laughing out loud")] =
      "what you doing laughing out loud ttyl!" :=
  C2_normalize_example [("wyd", "what you doing"), ("lol", "laughing out loud")]
    (by decide) (by decide) (by decide)

/-- Claim C3, counterexample: a first row equal to the lowercase pair
("?", "i have a question") is NOT dropped as a header — the code compares
against "I have a question" with a capital I — so the claimed sentinel, taken
case-sensitively, is wrong: the row survives into the dictionary instead of
yielding the empty one. -/
theorem C3_claim_false :
    load_data_and_model [("?", "i have a question")] =
      [("?", "i have a question")] ∧
    load_data_and_model [("?", "i have a question")] ≠ [] := by
  exact ⟨by decide, by decide⟩

/-- Claim C3, amended: during build the first row is dropped as a mistakenly
ingested header if and only if it equals the sentinel pair
("?", "I have a question") — capital I — exactly, compared case-sensitively on
the pre-cleaning raw row values; the rest of the pipeline then runs on the
remaining rows. -/
theorem C3_header_sentinel (s m : String) (rest : List (String × String)) :
    load_data_and_model ((s, m) :: rest) =
      if s = "?" ∧ m = "I have a question" then buildRows rest
      else buildRows ((s, m) :: rest) := by
  unfold load_data_and_model dropHeader
  by_cases h1 : s = "?"
  · by_cases h2 : m = "I have a question"
    · simp [h1, h2]
    · simp [h1, h2]
  · simp [h1]

/-- Claim C4, counterexample: the single-row raw source ("IT","pronoun") has
two columns, no duplicate slang keys and no sentinel header row, yet the built
dictionary is empty — size 0, not the claimed row count 1 — because the row is
removed by the "it" denylist. -/
theorem C4_claim_false :
    load_data_and_model [("IT", "pronoun")] = [] ∧
    (load_data_and_model [("IT", "pronoun")]).length ≠
      (dropHeader [("IT", "pronoun")]).length := by
  exact ⟨by decide, by decide⟩

/-- Claim C4, amended: for every raw source (with its two columns) whose
post-header rows have pairwise-distinct cleaned slangs, none of which is the
denylisted "it", build produces a dictionary whose size equals the input row
count minus any sentinel header row. -/
theorem C4_build_size (rows : List (String × String))
    (h1 : ((dropHeader rows).map (fun p => clean p.1)).Nodup)
    (h2 : ∀ p ∈ dropHeader rows, clean p.1 ≠ "it") :
    (load_data_and_model rows).length = (dropHeader rows).length := by
  unfold load_data_and_model buildRows
  have hraw : ((dropHeader rows).map Prod.fst).Nodup := by
    have hmm : (((dropHeader rows).map Prod.fst).map clean).Nodup := by
      rw [List.map_map]; exact h1
    exact hmm.of_map clean
  rw [dedupSlang_eq_self (dropHeader rows) [] (by simpa using hraw)]
  have hfil : ((dropHeader rows).map fun p => (clean p.1, clean p.2)).filter
      (fun p => p.1 != "it") =
      (dropHeader rows).map fun p => (clean p.1, clean p.2) := by
    rw [List.filter_eq_self]
    intro p hp
    rcases List.mem_map.mp hp with ⟨q, hq, rfl⟩
    simpa using h2 q hq
  rw [hfil, toDict_eq_self]
  · rw [List.length_map]
  · rw [List.map_map]
    exact h1

/-- Claim C4, witness: the amended statement on a concrete three-row source
with a sentinel header, giving a dictionary of size two. -/
theorem C4_build_size_witness :
    (load_data_and_model
      [("?", "I have a question"), ("LOL", "laughing out loud"),
       ("BRB", "be right back")]).length =
    (dropHeader
      [("?", "I have a question"), ("LOL", "laughing out loud"),
       ("BRB", "be right back")]).length :=
  C4_build_size _ (by decide) (by decide)

/-- Claim C5: for every raw source, the dictionary returned by build never
contains the key "it" — every row whose cleaned slang equals "it" is dropped
by the denylist filter before materialization. -/
theorem C5_no_it_key (rows : List (String × String)) :
    lookup? (load_data_and_model rows) "it" = none := by
  unfold load_data_and_model buildRows toDict
  apply lookup?_foldl_dinsert_none _ "it" [] rfl
  intro p hp
  have hmem := List.of_mem_filter hp
  simpa using hmem

/-- Claim C6: for every dictionary d and every string s all of whose
whitespace-split tokens, after punctuation stripping and lowercasing, are
absent from d, normalize returns s with its tokens preserved unchanged and
inter-word whitespace collapsed to single spaces. -/
theorem C6_passthrough (d : List (String × String)) (s : String)
    (h : ∀ w ∈ pySplit s, lookup? d (cleanWord w) = none) :
    normalize_slang s d = joinSp (pySplit s) := by
  unfold normalize_slang
  congr 1
  have hid : ∀ w ∈ pySplit s, (lookup? d (cleanWord w)).getD w = id w := by
    intro w hw
    rw [h w hw]
    rfl
  rw [List.map_congr_left hid, List.map_id]

/-- Claim C6, witness: a concrete sentence with no known tokens and
multiple inter-word spaces passes through whitespace-collapsed. -/
theorem C6_passthrough_witness :
    normalize_slang "hello   world" [("lol", "laughing out loud")] =
      joinSp (pySplit "hello   world") :=
  C6_passthrough [("lol", "laughing out loud")] "hello   world" (by decide)

/-- Claim C7: invoked with an absent (None) dictionary, the application-level
normalizer refuses to execute, signalling the dictionary-unavailable error,
and never returns the input text (or any text) as a successful result. -/
theorem C7_refuses_without_dict (text : String) :
    appNormalize none text = Except.error dictUnavailableMsg ∧
    ∀ out : String, appNormalize none text ≠ Except.ok out :=
  ⟨rfl, fun _ h => Except.noConfusion h⟩

/-- Claim C8, counterexample: a whitespace-only slang input is NOT rejected —
the emptiness check runs on the raw input before cleaning — and the add
succeeds, inserting an entry whose cleaned key is the empty string. -/
theorem C8_claim_false :
    add_slang [] " " "x" = (AddResult.ok, [("", "x")]) := by decide

/-- Claim C8, amended: add fails with the invalid-input error and leaves the
store unchanged when the slang or the meaning is the empty string (the check
is on the raw, pre-cleaning inputs; whitespace-only non-empty inputs are not
rejected and can insert an entry with an empty cleaned key). -/
theorem C8_empty_rejected (d : List (String × String)) (s m : String)
    (h : s = "" ∨ m = "") :
    add_slang d s m = (AddResult.invalidInput, d) := by
  unfold add_slang
  rcases h with h | h
  · simp [h]
  · simp [h]

/-- Claim C8, witness: the amended statement at a concrete store and an empty
slang input. -/
theorem C8_empty_rejected_witness :
    add_slang [("brb", "be right back")] "" "anything" =
      (AddResult.invalidInput, [("brb", "be right back")]) :=
  C8_empty_rejected [("brb", "be right back")] "" "anything" (Or.inl rfl)

/-- Claim C9, counterexample: with the cleaned slang "ftw" already a key of
the store but an empty meaning input, add fails with the invalid-input error,
not the claimed already-exists error — the emptiness check runs first. -/
theorem C9_claim_false :
    add_slang [("ftw", "for the win")] "ftw" "" =
      (AddResult.invalidInput, [("ftw", "for the win")]) ∧
    (lookup? [("ftw", "for the win")] (clean "ftw")).isSome = true ∧
    AddResult.invalidInput ≠ AddResult.alreadyExists := by
  exact ⟨by decide, by decide, by decide⟩

/-- Claim C9, amended: for every store d and non-empty raw inputs whose
cleaned (lowercased, trimmed) slang already exists as a key of d, add fails
with the already-exists error and leaves d unchanged: no entry is added,
removed or overwritten. -/
theorem C9_duplicate_rejected (d : List (String × String)) (s m : String)
    (hs : s ≠ "") (hm : m ≠ "") (h : (lookup? d (clean s)).isSome = true) :
    add_slang d s m = (AddResult.alreadyExists, d) := by
  simp [add_slang, beq_eq_false_iff_ne.mpr hs, beq_eq_false_iff_ne.mpr hm, h]

/-- Claim C9, witness: the amended statement on a store already containing
"ftw", with the differently-cased input "FTW". -/
theorem C9_duplicate_rejected_witness :
    add_slang [("ftw", "for the win")] "FTW" "whatever" =
      (AddResult.alreadyExists, [("ftw", "for the win")]) :=
  C9_duplicate_rejected [("ftw", "for the win")] "FTW" "whatever"
    (by decide) (by decide) (by decide)

/-- Claim C10: for every store d and inputs whose cleaned slang and meaning
are non-empty and whose cleaned slang is not yet a key of d, add succeeds and
yields exactly d extended with the single entry cleaned-slang ↦
cleaned-meaning: the new key looks up to the new meaning, every other key
still maps to its previous value, and the store size grows by exactly one. -/
theorem C10_add_extends (d : List (String × String)) (s m : String)
    (hs : clean s ≠ "") (hm : clean m ≠ "")
    (h : lookup? d (clean s) = none) :
    add_slang d s m = (AddResult.ok, d ++ [(clean s, clean m)]) ∧
    lookup? (d ++ [(clean s, clean m)]) (clean s) = some (clean m) ∧
    (∀ k, k ≠ clean s → lookup? (d ++ [(clean s, clean m)]) k = lookup? d k) ∧
    (d ++ [(clean s, clean m)]).length = d.length + 1 := by
  have hs0 : s ≠ "" := fun e => hs (by rw [e]; rfl)
  have hm0 : m ≠ "" := fun e => hm (by rw [e]; rfl)
  refine ⟨?_, ?_, ?_, by simp⟩
  · have hrun : add_slang d s m = (AddResult.ok, dinsert d (clean s) (clean m)) := by
      simp [add_slang, beq_eq_false_iff_ne.mpr hs0, beq_eq_false_iff_ne.mpr hm0, h]
    rw [hrun, dinsert_of_lookup_none d _ _ h]
  · rw [lookup?_append, h]
    simp [lookup?_cons]
  · intro k hk
    rw [lookup?_append, lookup?_cons, if_neg (fun e => hk e.symm)]
    cases lookup? d k <;> rfl

/-- Claim C10, witness: adding "FTW " / "For The Win" to a one-entry store
appends exactly the cleaned entry ftw ↦ "for the win". -/
theorem C10_add_extends_witness :
    add_slang [("brb", "be right back")] "FTW " "For The Win" =
      (AddResult.ok, [("brb", "be right back"), ("ftw", "for the win")]) := by
  have h := (C10_add_extends [("brb", "be right back")] "FTW " "For The Win"
    (by decide) (by decide) (by decide)).1
  rw [h]
  rfl

end Slang

